import Mathlib

/-!
Shallow embedding of the tauri-plugin-cache storage engine (src/desktop.rs,
src/commands.rs, src/models.rs).

Machine conventions:
* bytes are modelled as `Nat`, byte buffers as `List Nat`;
* `serde_json::Value` payloads are modelled by a type parameter `V`;
* the external serde/flate2/base64 library functions are model parameters
  (`ser`, `deser`, `zip`, `unzip`, `b64`, and the document codec), since they
  are not code of this repository; every control-flow decision of the
  repository's own code is embedded concretely;
* `HashMap` is modelled as an association list with unique keys, with
  lookup/insert/remove mirroring the map semantics (iteration order is
  irrelevant to every embedded operation: only lengths and counts are taken);
* fallible operations return `Except`; a Rust `panic!` (from `.unwrap()`)
  is modelled as `Except.error ()` of a dedicated unit error.
-/

/-- models.rs: `COMPRESSION_THRESHOLD` (1KB). -/
def COMPRESSION_THRESHOLD : Nat := 1024

/-- models.rs: `CompressionConfig { enabled, level, threshold }`. -/
structure CompressionConfig where
  enabled : Bool
  level : Nat
  threshold : Nat
deriving DecidableEq

/-- models.rs: `CompressionConfig::default()` (enabled: false, level: 6, threshold: 1024). -/
def CompressionConfig.default : CompressionConfig :=
  { enabled := false, level := 6, threshold := COMPRESSION_THRESHOLD }

/-- models.rs: `SetItemOptions { ttl, compress }`. -/
structure SetItemOptions where
  ttl : Option Nat
  compress : Option Bool
deriving DecidableEq

/-- models.rs: `CacheStats { total_size, active_size }`. -/
structure CacheStats where
  total_size : Nat
  active_size : Nat
deriving DecidableEq

/-- desktop.rs: `struct CacheEntry { value, expires_at, is_compressed }`. -/
structure CacheEntry (V : Type) where
  value : V
  expires_at : Option Nat
  is_compressed : Option Bool
deriving DecidableEq

/-- The persisted document: `HashMap<String, CacheEntry>` as an association list. -/
abbrev Doc (V : Type) := List (String × CacheEntry V)

/-- desktop.rs: `CacheValueMap = HashMap<String, (serde_json::Value, Option<u64>)>`,
the in-memory hot cache. -/
abbrev Mem (V : Type) := List (String × (V × Option Nat))

/-- `HashMap::get` on an association list. -/
def alookup {α : Type} : List (String × α) → String → Option α
  | [], _ => none
  | kv :: tl, k => if kv.1 = k then some kv.2 else alookup tl k

/-- `HashMap::remove` on an association list (drops every pair carrying the key). -/
def aerase {α : Type} : List (String × α) → String → List (String × α)
  | [], _ => []
  | kv :: tl, k => if kv.1 = k then aerase tl k else kv :: aerase tl k

/-- `HashMap::insert` on an association list: replaces any binding of the key. -/
def ainsert {α : Type} (l : List (String × α)) (k : String) (a : α) : List (String × α) :=
  (k, a) :: aerase l k

/-- desktop.rs: `Error::Cache(String)` (the error variant every cache
operation produces on failure). -/
inductive CacheError where
  | cache (msg : String)

/-- The backing file as seen by `read_from_file`: absent, affected by a genuine
I/O failure (open/metadata/read), or present with raw contents of type `S`. -/
inductive FileState (S : Type) where
  | missing
  | ioError
  | raw (contents : S)
deriving DecidableEq

/-- The filesystem around the cache file: whether the parent directory of the
configured path exists, and the file itself. `fs::File::create` fails when the
parent directory is missing. -/
structure FileSystem (S : Type) where
  parent_dir_exists : Bool
  file : FileState S
deriving DecidableEq

/-- Model parameters for serde_json whole-document (de)serialization as used by
`read_from_file` / `write_to_file`: `ser` is `serde_json::to_writer`, `parse`
is `serde_json::from_str` (`none` = parse failure), `isEmpty` is
`contents.is_empty()`. -/
structure DocCodec (S V : Type) where
  ser : Doc V → S
  parse : S → Option (Doc V)
  isEmpty : S → Bool

/-- desktop.rs lines 146-171, `Cache::read_from_file`: missing file and empty or
unparsable contents all yield the empty document; only genuine I/O failures
propagate as errors. -/
def read_from_file {S V : Type} (codec : DocCodec S V) :
    FileState S → Except Unit (Doc V)
  | .missing => .ok []
  | .ioError => .error ()
  | .raw contents =>
    if codec.isEmpty contents then .ok []
    else
      match codec.parse contents with
      | some data => .ok data
      | none => .ok []

/-- desktop.rs lines 174-183, `Cache::write_to_file`: `fs::File::create(path)?`
followed by a buffered serialized write. The source contains no
`create_dir_all` here (the cache directory is created once during plugin
setup in lib.rs), so the create step fails when the parent directory is
missing. -/
def write_to_file {S V : Type} (codec : DocCodec S V) (fs : FileSystem S)
    (data : Doc V) : Except Unit (FileSystem S) :=
  if fs.parent_dir_exists then
    .ok { parent_dir_exists := fs.parent_dir_exists, file := .raw (codec.ser data) }
  else
    .error ()

/-- desktop.rs lines 186-233, `Cache::compress_value`: serialize, then if
compression is globally disabled or the serialized length is below the
threshold, frame the raw bytes behind marker byte 0; otherwise frame the
zlib-compressed bytes behind marker byte 1. `ser` models
`serde_json::to_string` (as UTF-8 bytes) and `zip level` models the
`ZlibEncoder` at `Compression::new(level)`; chunked writing feeds the encoder
the same byte sequence, so it is the plain function application here. -/
def compress_value {V : Type} (cfg : CompressionConfig) (ser : V → List Nat)
    (zip : Nat → List Nat → List Nat) (v : V) : List Nat :=
  let jsonBytes := ser v
  if cfg.enabled = false ∨ jsonBytes.length < cfg.threshold then
    0 :: jsonBytes
  else
    1 :: zip cfg.level jsonBytes

/-- desktop.rs lines 236-266, `Cache::decompress_value`: empty input is an
error; otherwise the leading marker byte alone selects the path (1 = zlib
decompress then deserialize, anything else = deserialize the remaining bytes
directly). `deser` models `str::from_utf8` + `serde_json::from_str`
(`none` = failure) and `unzip` models the `ZlibDecoder`. Failures are
collapsed to `none`. -/
def decompress_value {V : Type} (deser : List Nat → Option V)
    (unzip : List Nat → Option (List Nat)) (data : List Nat) : Option V :=
  match data with
  | [] => none
  | marker :: rest =>
    if marker = 1 then
      (unzip rest).bind deser
    else
      deser rest

/-- desktop.rs line 119 etc.: `expires_at < now` — the lazy-expiry test used by
`get`, `has` and the sweeper. -/
def entryExpiredAt (expires_at : Option Nat) (now : Nat) : Bool :=
  match expires_at with
  | some t => decide (t < now)
  | none => false

/-- desktop.rs lines 560-569: the `active_size` filter — an entry counts as
active when it has no expiry or `expires_at > now` (strict). -/
def entryActive {V : Type} (e : CacheEntry V) (now : Nat) : Bool :=
  match e.expires_at with
  | some t => decide (now < t)
  | none => true

/-- The count taken by `active_size` over a loaded document. -/
def activeCount {V : Type} (doc : Doc V) (now : Nat) : Nat :=
  doc.countP (fun kv => entryActive kv.2 now)

/-- desktop.rs lines 116-135: one pass of the sweeper's document filtering —
drop exactly the entries with `expires_at < now`. -/
def sweepDoc {V : Type} (doc : Doc V) (now : Nat) : Doc V :=
  doc.filter (fun kv => !(entryExpiredAt kv.2.expires_at now))

/-- desktop.rs lines 304-307: `options.compress.unwrap_or(compression.enabled)`
— the per-call compression resolution in `Cache::set`. -/
def should_compress (options : Option SetItemOptions) (cfg : CompressionConfig) : Bool :=
  ((options.bind (fun o => o.compress)).getD cfg.enabled)

/-- desktop.rs lines 366-424, the file-backed half of `Cache::get`: load the
document under the file mutex (a read failure is surfaced as `Error::Cache`);
a missing or expired entry yields `none`; a compressed entry is base64-decoded
(`asBytes`, which also enforces that the stored value is a string — both
failures map to `Error::Cache`) and run through `decompress_value`; a live
entry is mirrored into the hot cache. Returns the result together with the
updated hot cache. -/
def cache_get_file {S V : Type} (codec : DocCodec S V) (asBytes : V → Option (List Nat))
    (deser : List Nat → Option V) (unzip : List Nat → Option (List Nat))
    (mem : Mem V) (fs : FileSystem S) (key : String) (now : Nat) :
    Except CacheError (Option V × Mem V) :=
  match read_from_file codec fs.file with
  | .error _ => .error (.cache "Failed to read cache file")
  | .ok data =>
    match alookup data key with
    | none => .ok (none, mem)
    | some entry =>
      if entryExpiredAt entry.expires_at now then
        .ok (none, mem)
      else if entry.is_compressed.getD false then
        match asBytes entry.value with
        | none => .error (.cache "Compressed value is not in expected format")
        | some bytes =>
          match decompress_value deser unzip bytes with
          | none => .error (.cache "Failed to decompress value")
          | some v => .ok (some v, ainsert mem key (v, entry.expires_at))
      else
        .ok (some entry.value, ainsert mem key (entry.value, entry.expires_at))

/-- desktop.rs lines 338-425, `Cache::get`: consult the hot cache first — a
live hit is returned without touching the file, an expired hit is evicted from
the hot cache — then fall through to the file path. -/
def cache_get {S V : Type} (codec : DocCodec S V) (asBytes : V → Option (List Nat))
    (deser : List Nat → Option V) (unzip : List Nat → Option (List Nat))
    (mem : Mem V) (fs : FileSystem S) (key : String) (now : Nat) :
    Except CacheError (Option V × Mem V) :=
  match alookup mem key with
  | some (value, expiresAt) =>
    if entryExpiredAt expiresAt now then
      cache_get_file codec asBytes deser unzip (aerase mem key) fs key now
    else
      .ok (some value, mem)
  | none => cache_get_file codec asBytes deser unzip mem fs key now

/-- desktop.rs lines 456-487, the file-backed half of `Cache::has`. -/
def cache_has_file {S V : Type} (codec : DocCodec S V)
    (mem : Mem V) (fs : FileSystem S) (key : String) (now : Nat) :
    Except CacheError (Bool × Mem V) :=
  match read_from_file codec fs.file with
  | .error _ => .error (.cache "Failed to read cache file")
  | .ok data =>
    match alookup data key with
    | none => .ok (false, mem)
    | some entry =>
      if entryExpiredAt entry.expires_at now then
        .ok (false, mem)
      else
        .ok (true, ainsert mem key (entry.value, entry.expires_at))

/-- desktop.rs lines 428-487, `Cache::has`: hot-cache check (with lazy
eviction of an expired hit) and then the file path. -/
def cache_has {S V : Type} (codec : DocCodec S V)
    (mem : Mem V) (fs : FileSystem S) (key : String) (now : Nat) :
    Except CacheError (Bool × Mem V) :=
  match alookup mem key with
  | some (_, expiresAt) =>
    if entryExpiredAt expiresAt now then
      cache_has_file codec (aerase mem key) fs key now
    else
      .ok (true, mem)
  | none => cache_has_file codec mem fs key now

/-- desktop.rs lines 269-335, `Cache::set`: `expires_at = now + ttl` whenever
`options.ttl` is present (including zero); the hot cache is updated first;
the document is loaded, the per-call/global compression choice is resolved by
`should_compress`, and the stored entry either carries the value as-is
(`is_compressed = Some(false)`) or the base64 text (`b64`) of the
marker-framed `compress_value` output (`is_compressed = Some(true)`); the
updated document is written back. -/
def cache_set {S V : Type} (codec : DocCodec S V) (cfg : CompressionConfig)
    (ser : V → List Nat) (zip : Nat → List Nat → List Nat) (b64 : List Nat → V)
    (mem : Mem V) (fs : FileSystem S) (key : String) (value : V)
    (options : Option SetItemOptions) (now : Nat) :
    Except CacheError (Mem V × FileSystem S) :=
  let expires_at := options.bind (fun opt => opt.ttl.map (fun ttl => now + ttl))
  let mem1 := ainsert mem key (value, expires_at)
  match read_from_file codec fs.file with
  | .error _ => .error (.cache "Failed to read cache file")
  | .ok data =>
    let entry : CacheEntry V :=
      if should_compress options cfg then
        { value := b64 (compress_value cfg ser zip value)
          expires_at := expires_at
          is_compressed := some true }
      else
        { value := value, expires_at := expires_at, is_compressed := some false }
    match write_to_file codec fs (ainsert data key entry) with
    | .error _ => .error (.cache "Failed to write cache file")
    | .ok fs1 => .ok (mem1, fs1)

/-- desktop.rs lines 490-512, `Cache::remove`: evict from the hot cache, load
the document, and only when the key was present remove it and write the
document back; an absent key performs no write and still succeeds. -/
def cache_remove {S V : Type} (codec : DocCodec S V)
    (mem : Mem V) (fs : FileSystem S) (key : String) :
    Except CacheError (Mem V × FileSystem S) :=
  let mem1 := aerase mem key
  match read_from_file codec fs.file with
  | .error _ => .error (.cache "Failed to read cache file")
  | .ok data =>
    if (alookup data key).isSome then
      match write_to_file codec fs (aerase data key) with
      | .error _ => .error (.cache "Failed to write cache file")
      | .ok fs1 => .ok (mem1, fs1)
    else
      .ok (mem1, fs)

/-- desktop.rs lines 533-542, `Cache::size`: one guarded load, then the total
entry count of that document. -/
def cache_size {S V : Type} (codec : DocCodec S V) (fs : FileSystem S) :
    Except CacheError Nat :=
  match read_from_file codec fs.file with
  | .error _ => .error (.cache "Failed to read cache file")
  | .ok data => .ok data.length

/-- desktop.rs lines 545-572, `Cache::active_size`: one guarded load, then the
count of entries whose `expires_at` is absent or strictly in the future at the
time this call reads the clock. -/
def active_size {S V : Type} (codec : DocCodec S V) (fs : FileSystem S)
    (now : Nat) : Except CacheError Nat :=
  match read_from_file codec fs.file with
  | .error _ => .error (.cache "Failed to read cache file")
  | .ok data => .ok (activeCount data now)

/-- commands.rs lines 56-70, the `stats` command on desktop: it calls
`Cache::size` and then `Cache::active_size`, each of which acquires the file
guard and loads the document separately; `fs1` and `fs2` are the Persistent
Store states observed by those two loads, and `now2` is the clock value read
inside `active_size`. -/
def stats_command {S V : Type} (codec : DocCodec S V)
    (fs1 fs2 : FileSystem S) (now2 : Nat) : Except CacheError CacheStats :=
  match cache_size codec fs1 with
  | .error e => .error e
  | .ok t =>
    match active_size codec fs2 now2 with
    | .error e => .error e
    | .ok a => .ok { total_size := t, active_size := a }

/-- Modelled from the spec: `stats` "must take the Guard once and derive both
counts from the same loaded document" — the single-snapshot statistics used to
compare the command's behavior against. -/
def stats_single_snapshot {V : Type} (doc : Doc V) (now : Nat) : CacheStats :=
  { total_size := doc.length, active_size := activeCount doc now }

/-- desktop.rs lines 72-141, one iteration of the Expiry Sweeper's loop body:
`timeRes` is the `SystemTime::now().duration_since(UNIX_EPOCH)` outcome, whose
`.unwrap()` panics (modelled as `.error ()`, ending the thread) when the clock
precedes the epoch; `memPoisoned`/`filePoisoned` model the poisoned-lock state
of `value_cache.lock().unwrap()` / `file_mutex.lock().unwrap()`, which also
panic. Otherwise the hot cache drops its expired entries, and the file side
loads the document — `continue`-ing past the cycle when the load fails —
removes the expired keys and, only when something was removed, writes the
document back with the write result discarded (`let _ = ...`). -/
def cleanup_cycle {S V : Type} (codec : DocCodec S V) (timeRes : Option Nat)
    (memPoisoned filePoisoned : Bool) (mem : Mem V) (fs : FileSystem S) :
    Except Unit (Mem V × FileSystem S) :=
  match timeRes with
  | none => .error ()
  | some now =>
    if memPoisoned then .error ()
    else
      let mem1 := mem.filter (fun kv => !(entryExpiredAt kv.2.2 now))
      if filePoisoned then .error ()
      else
        match read_from_file codec fs.file with
        | .error _ => .ok (mem1, fs)
        | .ok data =>
          if data.any (fun kv => entryExpiredAt kv.2.expires_at now) then
            match write_to_file codec fs (sweepDoc data now) with
            | .error _ => .ok (mem1, fs)
            | .ok fs1 => .ok (mem1, fs1)
          else
            .ok (mem1, fs)

/-- `Cache::set` immediately followed by `Cache::get` on the same key, with the
set happening at time `now` and the get at time `t` — the composite the
TTL claims quantify over. -/
def set_then_get {S V : Type} (codec : DocCodec S V) (cfg : CompressionConfig)
    (ser : V → List Nat) (zip : Nat → List Nat → List Nat) (b64 : List Nat → V)
    (asBytes : V → Option (List Nat)) (deser : List Nat → Option V)
    (unzip : List Nat → Option (List Nat))
    (mem : Mem V) (fs : FileSystem S) (key : String) (value : V)
    (options : Option SetItemOptions) (now t : Nat) :
    Except CacheError (Option V × Mem V) :=
  match cache_set codec cfg ser zip b64 mem fs key value options now with
  | .error e => .error e
  | .ok (mem1, fs1) => cache_get codec asBytes deser unzip mem1 fs1 key t

/-! Concrete instantiations of the external-library parameters, used to
evaluate the embedded operations on explicit inputs: `Nat` payloads with a
singleton-list serialization, identity zlib, and a document codec whose file
contents are the document itself. -/

/-- Document codec instance with `S := Doc Nat`: file contents are the
document, parsing always succeeds, contents never read as empty. -/
def codecN : DocCodec (Doc Nat) Nat :=
  { ser := fun d => d, parse := fun d => some d, isEmpty := fun _ => false }

/-- Value serializer instance: a `Nat` payload serializes to a one-byte buffer. -/
def serN : Nat → List Nat := fun n => [n]

/-- Value deserializer instance inverting `serN`. -/
def deserN : List Nat → Option Nat :=
  fun l => match l with | [n] => some n | _ => none

/-- Zlib encoder instance: identity on the byte buffer at every level. -/
def zipN : Nat → List Nat → List Nat := fun _ l => l

/-- Zlib decoder instance inverting `zipN`. -/
def unzipN : List Nat → Option (List Nat) := fun l => some l

/-- Base64 text of framed bytes as a `Nat` payload (unused by uncompressed
entries). -/
def b64N : List Nat → Nat := fun _ => 0

/-- Stored-string extraction instance for `Nat` payloads (never a string). -/
def asBytesN : Nat → Option (List Nat) := fun _ => none

/-- Document codec instance with byte-list payloads (`V := List Nat`), letting
a stored entry hold the framed bytes themselves. -/
def codecL : DocCodec (Doc (List Nat)) (List Nat) :=
  { ser := fun d => d, parse := fun d => some d, isEmpty := fun _ => false }

/-- Value serializer instance for byte-list payloads: the bytes themselves. -/
def serL : List Nat → List Nat := fun l => l

/-- Base64 instance for byte-list payloads: the framed bytes stored verbatim. -/
def b64L : List Nat → List Nat := fun l => l

/-- Document codec instance with `S := Option (Doc Nat)`, whose `none`
contents model a file that fails to parse and whose `some []` contents read as
empty. -/
def codecO : DocCodec (Option (Doc Nat)) Nat :=
  { ser := fun d => some d
    parse := fun s => s
    isEmpty := fun s => decide (s = some []) }

/-! Helper lemmas shared by the claim theorems. -/

/-- An entry the sweeper removes (strictly past its expiry at the sweep time)
is never counted as active (strictly future expiry) at any time at or after
the sweep. -/
lemma entryActive_of_not_expired {V : Type} (e : CacheEntry V) (nowS now : Nat)
    (hle : nowS ≤ now)
    (h : entryExpiredAt e.expires_at nowS = true) : entryActive e now = false := by
  cases hx : e.expires_at with
  | none => simp [entryExpiredAt, hx] at h
  | some t =>
    simp [entryExpiredAt, hx] at h
    simp [entryActive, hx]
    omega

/-- Sweeping a document at time `nowS` does not change its active count at any
time `now ≥ nowS`: the sweeper only removes entries that were already
inactive. -/
lemma activeCount_sweepDoc {V : Type} (doc : Doc V) (nowS now : Nat)
    (hle : nowS ≤ now) :
    activeCount (sweepDoc doc nowS) now = activeCount doc now := by
  induction doc with
  | nil => rfl
  | cons kv tl ih =>
    by_cases h : entryExpiredAt kv.2.expires_at nowS = true
    · have ha := entryActive_of_not_expired kv.2 nowS now hle h
      simp [sweepDoc, activeCount, List.filter, List.countP_cons, h, ha] at *
      exact ih
    · simp only [Bool.not_eq_true] at h
      simp [sweepDoc, activeCount, List.filter, List.countP_cons, h] at *
      omega

/-- Erasing a key that a map does not bind leaves the map unchanged. -/
lemma aerase_of_alookup_none {α : Type} (l : List (String × α)) (k : String)
    (h : alookup l k = none) : aerase l k = l := by
  induction l with
  | nil => rfl
  | cons kv tl ih =>
    by_cases hk : kv.1 = k
    · simp [alookup, hk] at h
    · simp [alookup, hk] at h
      simp [aerase, hk, ih h]

/-- C4: for all values V and compression policies P, decoding the encoding of
V under P yields V again, provided the external serde and zlib codecs
round-trip; the leading marker byte written by `compress_value` is what
selects the `decompress_value` path. -/
theorem codec_roundtrip {V : Type} (cfg : CompressionConfig) (ser : V → List Nat)
    (deser : List Nat → Option V) (zip : Nat → List Nat → List Nat)
    (unzip : List Nat → Option (List Nat)) (v : V)
    (hser : ∀ w, deser (ser w) = some w)
    (hzip : ∀ lvl bs, unzip (zip lvl bs) = some bs) :
    decompress_value deser unzip (compress_value cfg ser zip v) = some v := by
  by_cases h : cfg.enabled = false ∨ (ser v).length < cfg.threshold
  · simp [compress_value, decompress_value, h, hser]
  · simp [compress_value, decompress_value, h, hzip, hser]

theorem codec_roundtrip_witness :
    decompress_value deserN unzipN (compress_value ⟨true, 6, 0⟩ serN zipN 3) = some 3 :=
  codec_roundtrip ⟨true, 6, 0⟩ serN deserN zipN unzipN 3
    (fun _ => rfl) (fun _ _ => rfl)

/-- C5: with compression enabled, a serialized payload of exactly
`threshold - 1` bytes takes the uncompressed framing (marker 0) and one of
exactly `threshold` bytes takes the compressed framing (marker 1) — the
cutoff in `compress_value` is strict-less-than. -/
theorem threshold_boundary {V : Type} (cfg : CompressionConfig) (ser : V → List Nat)
    (zip : Nat → List Nat → List Nat) (v w : V)
    (hen : cfg.enabled = true) (hpos : 1 ≤ cfg.threshold)
    (hv : (ser v).length = cfg.threshold - 1)
    (hw : (ser w).length = cfg.threshold) :
    (compress_value cfg ser zip v).head? = some 0 ∧
    (compress_value cfg ser zip w).head? = some 1 := by
  constructor
  · have hlt : (ser v).length < cfg.threshold := by omega
    simp [compress_value, hlt]
  · have hge : ¬ ((ser w).length < cfg.threshold) := by omega
    simp [compress_value, hen, hge]

theorem threshold_boundary_witness :
    (compress_value ⟨true, 6, 2⟩ serL zipN [9]).head? = some 0 ∧
    (compress_value ⟨true, 6, 2⟩ serL zipN [9, 9]).head? = some 1 :=
  threshold_boundary ⟨true, 6, 2⟩ serL zipN [9] [9, 9] rfl (by decide) rfl rfl

/-- C3 (counterexample): a `set` with `options.compress = Some(true)`, a
serialized payload of length 1 ≥ threshold 1, and the process-wide
`CompressionConfig.enabled = false` stores the framed payload with marker
byte 0, not 1 — `compress_value` re-checks the global `enabled` flag, so the
per-call flag does not override it down to the marker. -/
theorem compress_override_cex :
    cache_set codecL ⟨false, 6, 1⟩ serL zipN b64L [] ⟨true, .missing⟩ "b" [5]
        (some ⟨none, some true⟩) 0
      = .ok ([("b", ([5], none))],
             ⟨true, .raw [("b", ⟨[0, 5], none, some true⟩)]⟩) ∧
    ([0, 5] : List Nat).head? = some 0 ∧ some (0 : Nat) ≠ some 1 ∧
    1 ≤ (serL [5]).length :=
  ⟨rfl, rfl, by decide, by decide⟩

/-- C3 (amended): `options.compress = Some(true)` does force the encode path
(`should_compress` resolves to true, so the entry is stored framed with
`is_compressed = Some(true)`), but the marker byte written by
`compress_value` is 1 only when the global `CompressionConfig.enabled` is
also true and the serialized length reaches the threshold; otherwise the
framed payload carries marker 0. -/
theorem compress_override_amended {V : Type} (cfg : CompressionConfig)
    (ser : V → List Nat) (zip : Nat → List Nat → List Nat)
    (opts : Option SetItemOptions) (v : V)
    (hc : opts.bind (fun o => o.compress) = some true) :
    should_compress opts cfg = true ∧
    (compress_value cfg ser zip v).head? =
      some (if cfg.enabled = true ∧ cfg.threshold ≤ (ser v).length then 1 else 0) := by
  refine ⟨by simp [should_compress, hc], ?_⟩
  by_cases h : cfg.enabled = false ∨ (ser v).length < cfg.threshold
  · have hx : ¬ (cfg.enabled = true ∧ cfg.threshold ≤ (ser v).length) := by
      rcases h with h | h
      · intro hy
        rw [hy.1] at h
        cases h
      · intro hy
        omega
    simp [compress_value, h, hx]
  · push_neg at h
    have hx : cfg.enabled = true ∧ cfg.threshold ≤ (ser v).length :=
      ⟨by simpa using h.1, by omega⟩
    have h3 : ¬ ((ser v).length < cfg.threshold) := by omega
    simp [compress_value, hx, h3]

theorem compress_override_amended_witness :
    should_compress (some ⟨none, some true⟩) ⟨false, 6, 1⟩ = true ∧
    (compress_value ⟨false, 6, 1⟩ serL zipN [5]).head? =
      some (if (false : Bool) = true ∧ 1 ≤ (serL [5]).length then 1 else 0) :=
  compress_override_amended ⟨false, 6, 1⟩ serL zipN (some ⟨none, some true⟩) [5] rfl

/-- C1 (counterexample): `set("a", 7, ttl: Some 0)` at time 5 stores
`expires_at = Some (5 + 0) = Some 5`; the same-second `get` still returns the
value, but a `get` one second later returns `none` — a TTL of exactly zero is
not treated as an absent TTL. -/
theorem ttl_zero_cex :
    set_then_get codecN ⟨false, 6, 1024⟩ serN zipN b64N asBytesN deserN unzipN
        [] ⟨true, .missing⟩ "a" 7 (some ⟨some 0, none⟩) 5 6
      = .ok (none, []) ∧
    set_then_get codecN ⟨false, 6, 1024⟩ serN zipN b64N asBytesN deserN unzipN
        [] ⟨true, .missing⟩ "a" 7 (some ⟨some 0, none⟩) 5 5
      = .ok (some 7, [("a", (7, some 5))]) :=
  ⟨rfl, rfl⟩

/-- C1 (amended): `set(k, v, ttl: Some 0)` at time `now` stores
`expires_at = Some now`, so a later `get` at time `t` returns the value
exactly while `t ≤ now` and `none` once `now < t`; only an absent `ttl`
yields an entry with no expiration, whose `get` succeeds at every time. -/
theorem ttl_zero_amended {S V : Type} (codec : DocCodec S V) (cfg : CompressionConfig)
    (ser : V → List Nat) (zip : Nat → List Nat → List Nat) (b64 : List Nat → V)
    (asBytes : V → Option (List Nat)) (deser : List Nat → Option V)
    (unzip : List Nat → Option (List Nat)) (k : String) (v : V) (now t : Nat)
    (hro : ∀ d, codec.parse (codec.ser d) = some d)
    (hne : ∀ d, codec.isEmpty (codec.ser d) = false)
    (hcfg : cfg.enabled = false) :
    set_then_get codec cfg ser zip b64 asBytes deser unzip [] ⟨true, .missing⟩ k v
        (some ⟨some 0, none⟩) now t
      = .ok (if now < t then none else some v,
             if now < t then [] else [(k, (v, some now))]) ∧
    set_then_get codec cfg ser zip b64 asBytes deser unzip [] ⟨true, .missing⟩ k v
        none now t
      = .ok (some v, [(k, (v, none))]) := by
  constructor
  · by_cases h : now < t
    · simp [set_then_get, cache_set, cache_get, cache_get_file, read_from_file,
            write_to_file, should_compress, ainsert, aerase, alookup,
            entryExpiredAt, hro, hne, hcfg, h]
    · simp [set_then_get, cache_set, cache_get, cache_get_file, read_from_file,
            write_to_file, should_compress, ainsert, aerase, alookup,
            entryExpiredAt, hro, hne, hcfg, h]
  · simp [set_then_get, cache_set, cache_get, cache_get_file, read_from_file,
          write_to_file, should_compress, ainsert, aerase, alookup,
          entryExpiredAt, hro, hne, hcfg]

theorem ttl_zero_amended_witness :
    set_then_get codecN ⟨false, 6, 1024⟩ serN zipN b64N asBytesN deserN unzipN
        [] ⟨true, .missing⟩ "a" 7 (some ⟨some 0, none⟩) 2 9
      = .ok (if 2 < 9 then none else some 7,
             if 2 < 9 then [] else [("a", (7, some 2))]) ∧
    set_then_get codecN ⟨false, 6, 1024⟩ serN zipN b64N asBytesN deserN unzipN
        [] ⟨true, .missing⟩ "a" 7 none 2 9
      = .ok (some 7, [("a", (7, none))]) :=
  ttl_zero_amended codecN ⟨false, 6, 1024⟩ serN zipN b64N asBytesN deserN unzipN
    "a" 7 2 9 (fun _ => rfl) (fun _ => rfl) rfl

/-- C2 (counterexample): the `stats` command performs two separate guarded
loads (`size`, then `active_size`), not one. Take a document with one entry
expiring at 6 and call `stats` at time 5 (N = 1 total, M = 1 unexpired at
call time); a sweep runs between the two internal loads at time 6 (removing
nothing, since expiry is strict) and `active_size` then reads the clock as 6:
the command returns `{total_size: 1, active_size: 0}`, not the claimed
`{total_size: 1, active_size: 1}` derived from the call-time snapshot. -/
theorem stats_two_loads_cex :
    stats_command codecN ⟨true, .raw [("k", ⟨0, some 6, some false⟩)]⟩
        ⟨true, .raw (sweepDoc [("k", ⟨0, some 6, some false⟩)] 6)⟩ 6
      = .ok ⟨1, 0⟩ ∧
    stats_single_snapshot [("k", (⟨0, some 6, some false⟩ : CacheEntry Nat))] 5
      = ⟨1, 1⟩ ∧
    (⟨1, 0⟩ : CacheStats) ≠ ⟨1, 1⟩ :=
  ⟨rfl, rfl, by decide⟩

/-- C2 (amended): `stats` composes two separately guarded loads; when the
clock does not advance between its two internal steps, a sweep running in
between (at any time up to the `active_size` clock read) cannot change the
result, which then equals the single-snapshot statistics — the sweeper only
removes entries that are already inactive. When the clock does advance
between the steps, `active_size` is evaluated at the later time and can drop
entries that were unexpired at call time. -/
theorem stats_sweep_same_instant {S V : Type} (codec : DocCodec S V)
    (doc : Doc V) (nowS now : Nat) (p1 p2 : Bool)
    (hle : nowS ≤ now)
    (hro : ∀ d, codec.parse (codec.ser d) = some d)
    (hne : ∀ d, codec.isEmpty (codec.ser d) = false) :
    stats_command codec ⟨p1, .raw (codec.ser doc)⟩
        ⟨p2, .raw (codec.ser (sweepDoc doc nowS))⟩ now
      = .ok (stats_single_snapshot doc now) := by
  simp [stats_command, cache_size, active_size, read_from_file, hro, hne,
        stats_single_snapshot, activeCount_sweepDoc doc nowS now hle]

theorem stats_sweep_same_instant_witness :
    stats_command codecN ⟨true, .raw (codecN.ser [("k", ⟨0, some 6, some false⟩)])⟩
        ⟨true, .raw (codecN.ser (sweepDoc [("k", ⟨0, some 6, some false⟩)] 5))⟩ 5
      = .ok (stats_single_snapshot [("k", (⟨0, some 6, some false⟩ : CacheEntry Nat))] 5) :=
  stats_sweep_same_instant codecN [("k", ⟨0, some 6, some false⟩)] 5 5 true true
    (by decide) (fun _ => rfl) (fun _ => rfl)

/-- C6: `load` returns the empty document when the backing file is missing,
when its contents are empty, and when they fail to parse; only a genuine I/O
failure propagates as an error; and a `get` on any key against a corrupted
(unparsable) file — with the key not sitting in the hot cache — returns
`none` rather than an error. -/
theorem load_recovery {S V : Type} (codec : DocCodec S V)
    (asBytes : V → Option (List Nat)) (deser : List Nat → Option V)
    (unzip : List Nat → Option (List Nat)) (mem : Mem V) (c e : S)
    (k : String) (now : Nat) (pe : Bool)
    (hparse : codec.parse c = none) (hempty : codec.isEmpty e = true)
    (hmem : alookup mem k = none) :
    read_from_file codec (.missing : FileState S) = .ok ([] : Doc V) ∧
    read_from_file codec (.raw e) = .ok [] ∧
    read_from_file codec (.raw c) = .ok [] ∧
    read_from_file codec (.ioError : FileState S) = .error () ∧
    cache_get codec asBytes deser unzip mem ⟨pe, .raw c⟩ k now = .ok (none, mem) := by
  have hraw : read_from_file codec (.raw c) = .ok [] := by
    by_cases hc : codec.isEmpty c = true
    · simp [read_from_file, hc]
    · simp [read_from_file, hc, hparse]
  refine ⟨rfl, by simp [read_from_file, hempty], hraw, rfl, ?_⟩
  simp [cache_get, cache_get_file, hmem, hraw, alookup]

theorem load_recovery_witness :
    read_from_file codecO (.missing : FileState (Option (Doc Nat))) = .ok ([] : Doc Nat) ∧
    read_from_file codecO (.raw (some [])) = .ok [] ∧
    read_from_file codecO (.raw none) = .ok [] ∧
    read_from_file codecO (.ioError : FileState (Option (Doc Nat))) = .error () ∧
    cache_get codecO asBytesN deserN unzipN [] ⟨true, .raw none⟩ "x" 0 = .ok (none, []) :=
  load_recovery codecO asBytesN deserN unzipN [] none (some []) "x" 0 true
    rfl (by decide) rfl

/-- C7 (counterexample): a store performed while the parent directory of the
cache file path is absent fails with an I/O error — `write_to_file` goes
straight to `fs::File::create` and contains no `create_dir_all`. -/
theorem store_missing_parent_cex :
    write_to_file codecN ⟨false, .missing⟩ [] = .error () :=
  rfl

/-- C7 (amended): `write_to_file` does not create missing parent directories;
whenever the parent directory of the configured cache file path is absent,
the store fails with an I/O error instead of succeeding (the cache directory
is created once during plugin setup, not by `store`). -/
theorem store_missing_parent_amended {S V : Type} (codec : DocCodec S V)
    (fs : FileSystem S) (d : Doc V) (h : fs.parent_dir_exists = false) :
    write_to_file codec fs d = .error () := by
  simp [write_to_file, h]

theorem store_missing_parent_amended_witness :
    write_to_file codecN ⟨false, .raw []⟩ [("z", ⟨1, none, none⟩)] = .error () :=
  store_missing_parent_amended codecN ⟨false, .raw []⟩ [("z", ⟨1, none, none⟩)] rfl

/-- C8 (counterexample): the sweeper's loop body does not survive every bad
cycle — when the clock cannot be obtained
(`SystemTime::now().duration_since(UNIX_EPOCH).unwrap()`), or either the hot
cache lock or the file lock is poisoned (`.lock().unwrap()`), the `.unwrap()`
panics and the sweeper thread terminates (modelled as `.error ()`), instead
of the claimed skip-and-continue. -/
theorem sweeper_panic_cex :
    cleanup_cycle codecN none false false [] ⟨true, .missing⟩ = .error () ∧
    cleanup_cycle codecN (some 0) true false [] ⟨true, .missing⟩ = .error () ∧
    cleanup_cycle codecN (some 0) false true [] ⟨true, .missing⟩ = .error () :=
  ⟨rfl, rfl, rfl⟩

/-- C8 (amended): only a failed load of the Persistent Store is skipped
gracefully — with the clock available and neither lock poisoned, a cycle
whose file read fails completes without panicking, leaves the file untouched,
and still evicts expired entries from the hot cache, so the loop runs again
after the next interval. (A clock failure or poisoned lock instead panics the
sweeper thread.) -/
theorem sweeper_skips_failed_load {S V : Type} (codec : DocCodec S V)
    (now : Nat) (mem : Mem V) (pe : Bool) :
    cleanup_cycle codec (some now) false false mem ⟨pe, .ioError⟩
      = .ok (mem.filter (fun kv => !(entryExpiredAt kv.2.2 now)), ⟨pe, .ioError⟩) := by
  simp [cleanup_cycle, read_from_file]

/-- C9: removing an absent key succeeds and is a complete no-op — with `k`
bound neither in the hot cache nor in the persisted document, `remove`
returns success and leaves both tiers exactly unchanged (no file write is
performed), so a repeated `remove` behaves identically. -/
theorem remove_absent_idempotent {S V : Type} (codec : DocCodec S V)
    (mem : Mem V) (c : S) (doc : Doc V) (pe : Bool) (k : String)
    (hparse : codec.parse c = some doc) (hne : codec.isEmpty c = false)
    (hmem : alookup mem k = none) (hdoc : alookup doc k = none) :
    cache_remove codec mem ⟨pe, .raw c⟩ k = .ok (mem, ⟨pe, .raw c⟩) := by
  simp [cache_remove, read_from_file, hne, hparse, hdoc,
        aerase_of_alookup_none mem k hmem]

theorem remove_absent_idempotent_witness :
    cache_remove codecN [("y", (2, none))] ⟨true, .raw [("y", ⟨2, none, none⟩)]⟩ "x"
      = .ok ([("y", (2, none))], ⟨true, .raw [("y", ⟨2, none, none⟩)]⟩) :=
  remove_absent_idempotent codecN [("y", (2, none))] [("y", ⟨2, none, none⟩)]
    [("y", ⟨2, none, none⟩)] true "x" rfl rfl (by decide) (by decide)

/-- C10: at the instant an entry's `expires_at` equals the current whole
second, `get` still returns the value and `has` still answers true (both use
strict `expires_at < now` for expiry), while `active_size` already excludes
the entry (it uses strict `expires_at > now`) — so a document holding only
that entry answers `has = true` yet `active_size = 0`. -/
theorem expiry_boundary_now {S V : Type} (codec : DocCodec S V)
    (asBytes : V → Option (List Nat)) (deser : List Nat → Option V)
    (unzip : List Nat → Option (List Nat)) (mem : Mem V) (c : S)
    (k : String) (v : V) (now : Nat) (pe : Bool)
    (hmem : alookup mem k = none)
    (hparse : codec.parse c = some [(k, ⟨v, some now, some false⟩)])
    (hne : codec.isEmpty c = false) :
    cache_get codec asBytes deser unzip mem ⟨pe, .raw c⟩ k now
      = .ok (some v, ainsert mem k (v, some now)) ∧
    cache_has codec mem ⟨pe, .raw c⟩ k now
      = .ok (true, ainsert mem k (v, some now)) ∧
    entryActive (⟨v, some now, some false⟩ : CacheEntry V) now = false ∧
    active_size codec ⟨pe, .raw c⟩ now = .ok 0 := by
  refine ⟨?_, ?_, by simp [entryActive], ?_⟩
  · simp [cache_get, cache_get_file, read_from_file, hmem, hparse, hne,
          alookup, entryExpiredAt]
  · simp [cache_has, cache_has_file, read_from_file, hmem, hparse, hne,
          alookup, entryExpiredAt]
  · simp [active_size, read_from_file, hparse, hne, activeCount,
          List.countP_cons, entryActive]

theorem expiry_boundary_now_witness :
    cache_get codecN asBytesN deserN unzipN [] ⟨true, .raw [("k", ⟨3, some 4, some false⟩)]⟩ "k" 4
      = .ok (some 3, ainsert [] "k" (3, some 4)) ∧
    cache_has codecN [] ⟨true, .raw [("k", ⟨3, some 4, some false⟩)]⟩ "k" 4
      = .ok (true, ainsert [] "k" (3, some 4)) ∧
    entryActive (⟨3, some 4, some false⟩ : CacheEntry Nat) 4 = false ∧
    active_size codecN ⟨true, .raw [("k", ⟨3, some 4, some false⟩)]⟩ 4 = .ok 0 :=
  expiry_boundary_now codecN asBytesN deserN unzipN [] [("k", ⟨3, some 4, some false⟩)]
    "k" 3 4 true rfl rfl rfl
